import Mathlib

/-!
Verification of the FHIR-lite record server (src/server.py): shallow
embedding of the data-access and request-validation layer.

Modelling conventions:
* SQL `TIMESTAMP` values (`created_at/updated_at/log timestamp`) are
  abstract ticks (`Nat`); `CURRENT_TIMESTAMP` / `datetime.utcnow()` is a
  `now : Nat` parameter threaded into each operation.
* SQL `DATE` values and Python `datetime.date` are a `Date` structure
  (calendar triple).  `datetime.fromisoformat` is modelled on the
  date-only `YYYY-MM-DD` form it accepts.
* The PostgreSQL store is a `DB` structure of row lists; transactions are
  functional state passing (an `Except.error` result carries no new state,
  which is exactly the rollback the context manager performs).
* `get_db_connection` is a Python `@contextmanager`: an exception raised
  in the `with` body is thrown back into the generator at the `yield`,
  caught there by `except psycopg2.Error` / `except Exception`, rolled
  back and re-raised as `HTTPException(500, ...)`.  This re-wrapping is
  modelled explicitly by `get_db_connection_result`.
* `str(e)` of a starlette `HTTPException` renders as
  `"{status_code}: {detail}"`; accents and quote characters of the
  Spanish messages are transliterated to plain ASCII.
* Observation `value` is `FLOAT` in the schema; no claim depends on
  float rounding, so it is carried as an exact rational.
-/

/-- A calendar date (Python `datetime.date`, SQL `DATE`). -/
structure Date where
  year : Nat
  month : Nat
  day : Nat
deriving DecidableEq, Repr

/-- Gregorian leap year test. -/
def isLeap (y : Nat) : Bool :=
  (y % 4 == 0 && y % 100 != 0) || y % 400 == 0

/-- Number of days of month `m` in year `y`. -/
def daysInMonth (y m : Nat) : Nat :=
  if m == 2 then (if isLeap y then 29 else 28)
  else if m == 4 || m == 6 || m == 9 || m == 11 then 30
  else 31

/-- A representable Python `datetime.date`: year 1..9999, valid month and day. -/
def validDate (d : Date) : Bool :=
  1 ≤ d.year && d.year ≤ 9999 && 1 ≤ d.month && d.month ≤ 12 &&
  1 ≤ d.day && d.day ≤ daysInMonth d.year d.month

/-- Strict comparison of dates (lexicographic on year, month, day). -/
def dateLt (a b : Date) : Bool :=
  a.year < b.year ||
    (a.year == b.year && (a.month < b.month ||
      (a.month == b.month && a.day < b.day)))

/-- Non-strict comparison of dates. -/
def dateLe (a b : Date) : Bool :=
  a.year < b.year ||
    (a.year == b.year && (a.month < b.month ||
      (a.month == b.month && a.day ≤ b.day)))

theorem dateLt_iff (a b : Date) :
    dateLt a b = true ↔
      (a.year < b.year ∨ (a.year = b.year ∧ (a.month < b.month ∨
        (a.month = b.month ∧ a.day < b.day)))) := by
  simp [dateLt, Bool.or_eq_true, Bool.and_eq_true, decide_eq_true_eq, beq_iff_eq]

theorem dateLe_iff (a b : Date) :
    dateLe a b = true ↔
      (a.year < b.year ∨ (a.year = b.year ∧ (a.month < b.month ∨
        (a.month = b.month ∧ a.day ≤ b.day)))) := by
  simp [dateLe, Bool.or_eq_true, Bool.and_eq_true, decide_eq_true_eq, beq_iff_eq]

/-- Value of a decimal digit character, `none` for non-digits. -/
def digitVal (c : Char) : Option Nat :=
  if c.isDigit then some (c.toNat - 48) else none

/-- The date-only ISO form accepted by `datetime.fromisoformat`:
exactly `YYYY-MM-DD` with a calendar-valid date. -/
def parseISODate (s : String) : Option Date :=
  match s.data with
  | [y1, y2, y3, y4, s1, m1, m2, s2, d1, d2] =>
    if s1 = '-' ∧ s2 = '-' then
      match digitVal y1, digitVal y2, digitVal y3, digitVal y4,
            digitVal m1, digitVal m2, digitVal d1, digitVal d2 with
      | some a, some b, some c, some d, some e, some f, some g, some h =>
        let dt : Date := ⟨1000 * a + 100 * b + 10 * c + d, 10 * e + f, 10 * g + h⟩
        if validDate dt then some dt else none
      | _, _, _, _, _, _, _, _ => none
    else none
  | _ => none

/-! ### Validation layer (the pydantic models of server.py) -/

/-- The gender enumeration check shared by application and schema. -/
def genderOk (g : String) : Bool :=
  g == "male" || g == "female" || g == "other"

def msgGender : String := "Genero debe ser male, female u other"

def msgFuture : String := "Fecha invalida: Fecha de nacimiento no puede ser futura"

def msgTooOld : String := "Fecha invalida: Fecha de nacimiento invalida"

/-- Message of the `ValueError` raised by `fromisoformat`, re-wrapped by
the validator's `except ValueError` clause. -/
def msgMalformed (v : String) : String :=
  "Fecha invalida: Invalid isoformat string: " ++ v

/-- `Patient.validate_gender`. -/
def validate_gender (v : String) : Except String String :=
  if genderOk v then .ok v else .error msgGender

/-- `Patient.validate_birthdate`: parse with `fromisoformat`, reject a
future date, reject a date before 1900-01-01; all three failures are
re-wrapped by the `except ValueError` clause into `Fecha invalida: ...`. -/
def validate_birthdate (v : String) (today : Date) : Except String String :=
  match parseISODate v with
  | none => .error (msgMalformed v)
  | some birth =>
    if dateLt today birth then .error msgFuture
    else if dateLt birth ⟨1900, 1, 1⟩ then .error msgTooOld
    else .ok v

/-- The full `Patient` request body (all fields required strings). -/
structure PatientPayload where
  id : String
  family_name : String
  given_name : String
  gender : String
  birthDate : String
  medical_summary : String
deriving DecidableEq, Repr

/-- Field validation of the full `Patient` model (gender, then birth date). -/
def validatePatient (today : Date) (p : PatientPayload) : Except String PatientPayload := do
  let _ ← validate_gender p.gender
  let _ ← validate_birthdate p.birthDate today
  .ok p

/-- The `PatientUpdate` request body: every field optional.  For a field,
`none` means not supplied, `some none` means explicitly set to JSON null,
`some (some s)` means set to the string `s`. -/
structure PatientUpdate where
  family_name : Option (Option String) := none
  given_name : Option (Option String) := none
  gender : Option (Option String) := none
  birthDate : Option (Option String) := none
  medical_summary : Option (Option String) := none
deriving DecidableEq, Repr

/-- `PatientUpdate.validate_gender`: `if v and v not in [...]` — the check
is skipped when the supplied value is `None` or the empty string (falsy).
No validator exists for any other field of `PatientUpdate`. -/
def validatePatientUpdate (u : PatientUpdate) : Except String PatientUpdate :=
  match u.gender with
  | some (some g) =>
    if g = "" then .ok u
    else if genderOk g then .ok u
    else .error msgGender
  | _ => .ok u

/-- The `Observation` request body. -/
structure ObservationPayload where
  patient_id : String
  category : String
  code : String
  display : String
  value : Rat
  unit : String
  date : String
deriving DecidableEq, Repr

def msgObsDate : String := "Formato de fecha invalido (use YYYY-MM-DD)"

/-- `Observation.validate_date`. -/
def validate_obs_date (v : String) : Except String String :=
  match parseISODate v with
  | none => .error msgObsDate
  | some _ => .ok v

/-- Field validation of the `Observation` model. -/
def validateObservation (o : ObservationPayload) : Except String ObservationPayload := do
  let _ ← validate_obs_date o.date
  .ok o

/-! ### Storage model (the PostgreSQL tables of initialize_db) -/

/-- A row of the `patients` table.  `medical_summary` is the only
nullable column (`TEXT` with no `NOT NULL`). -/
structure PatientRow where
  id : String
  family_name : String
  given_name : String
  gender : String
  birth_date : Date
  medical_summary : Option String
  created_at : Nat
  updated_at : Nat
deriving DecidableEq, Repr

/-- A row of the `observations` table. -/
structure ObservationRow where
  id : String
  patient_id : String
  category : String
  code : String
  display : String
  value : Rat
  unit : String
  date : Date
  created_at : Nat
deriving DecidableEq, Repr

/-- A row of the `logs` table (`id SERIAL` is the list position). -/
structure LogEntry where
  timestamp : Nat
  action : String
  resource : String
  resource_id : String
deriving DecidableEq, Repr

/-- The whole store. -/
structure DB where
  patients : List PatientRow
  observations : List ObservationRow
  logs : List LogEntry
deriving DecidableEq, Repr

/-- Outcome surfaced to the HTTP caller (fastapi `HTTPException`). -/
structure HTTPError where
  status : Nat
  detail : String
deriving DecidableEq, Repr

/-- An abnormal exit of a `with get_db_connection()` body: either an
`HTTPException` raised by the endpoint code, or a `psycopg2.Error`
raised by the storage engine. -/
inductive BodyErr where
  | httpE (status : Nat) (detail : String)
  | pgE (msg : String)
deriving DecidableEq, Repr

/-- `get_db_connection` context manager (server.py lines 41-62): a
successful body is committed; an exception thrown into the generator at
the `yield` is caught by `except psycopg2.Error` or `except Exception`,
the transaction is rolled back, and an `HTTPException(500, ...)` is
raised in its place — including when the body raised a deliberate
4xx `HTTPException`, whose `str()` form is `"{status}: {detail}"`. -/
def get_db_connection_result {α : Type} : Except BodyErr α → Except HTTPError α
  | .ok a => .ok a
  | .error (.pgE m) => .error ⟨500, "Error de base de datos: " ++ m⟩
  | .error (.httpE s d) =>
    .error ⟨500, "Error inesperado: " ++ Nat.repr s ++ ": " ++ d⟩

/-- `log_event`: best-effort audit append after the mutation committed.
`ok` tells whether the insert into `logs` succeeds; on failure the
exception is caught (`except Exception: print(...)`) and swallowed, so
the store (and the caller) are unaffected. -/
def log_event (ok : Bool) (now : Nat) (action resource resource_id : String)
    (db : DB) : DB :=
  if ok then
    { db with logs := db.logs ++ [⟨now, action, resource, resource_id⟩] }
  else db

/-! ### Patient repository (endpoint bodies run inside one transaction) -/

/-- Row-level constraints of the `patients` table: VARCHAR widths and the
`CHECK (gender IN ...)` defence-in-depth constraint. -/
def patientRowOk (r : PatientRow) : Bool :=
  r.id.length ≤ 50 && r.family_name.length ≤ 100 && r.given_name.length ≤ 100 &&
  r.gender.length ≤ 10 && genderOk r.gender

/-- The `INSERT INTO patients` statement: the storage engine parses the
birth date string, enforces the primary key and the row constraints. -/
def insertPatientRow (ps : List PatientRow) (p : PatientPayload) (now : Nat) :
    Except String (List PatientRow) :=
  match parseISODate p.birthDate with
  | none => .error "invalid input syntax for type date"
  | some bd =>
    let r : PatientRow :=
      ⟨p.id, p.family_name, p.given_name, p.gender, bd, some p.medical_summary, now, now⟩
    if ps.any (fun q => q.id == r.id) then
      .error "duplicate key value violates unique constraint patients_pkey"
    else if patientRowOk r then .ok (ps ++ [r])
    else .error "new row for relation patients violates a constraint"

/-- `POST /fhir/Patient` body: duplicate check, then insert. -/
def create_patient_body (p : PatientPayload) (now : Nat) (db : DB) :
    Except BodyErr (String × DB) :=
  if db.patients.any (fun r => r.id == p.id) then
    .error (.httpE 400 ("El paciente " ++ p.id ++ " ya existe"))
  else
    match insertPatientRow db.patients p now with
    | .error m => .error (.pgE m)
    | .ok ps => .ok (p.id, { db with patients := ps })

/-- `POST /fhir/Patient`: pydantic validation, transaction, audit. -/
def create_patient (today : Date) (now : Nat) (auditOk : Bool)
    (p : PatientPayload) (db : DB) : Except HTTPError (String × DB) :=
  match validatePatient today p with
  | .error m => .error ⟨422, m⟩
  | .ok _ =>
    match get_db_connection_result (create_patient_body p now db) with
    | .error e => .error e
    | .ok (pid, db1) => .ok (pid, log_event auditOk now "CREATE" "Patient" pid db1)

/-- Apply an update function to every row whose `id` matches (the SQL
`UPDATE ... WHERE id = ...`), propagating a storage error. -/
def mapRowsM (pid : String) (f : PatientRow → Except String PatientRow) :
    List PatientRow → Except String (List PatientRow)
  | [] => .ok []
  | r :: rs => do
    let r2 ← if r.id == pid then f r else .ok r
    let rs2 ← mapRowsM pid f rs
    .ok (r2 :: rs2)

/-- The `UPDATE` of the full-replace endpoint: overwrite the five payload
columns and refresh `updated_at`; `id` and `created_at` are not assigned. -/
def replaceRow (p : PatientPayload) (now : Nat) (r : PatientRow) :
    Except String PatientRow :=
  match parseISODate p.birthDate with
  | none => .error "invalid input syntax for type date"
  | some bd =>
    let r2 : PatientRow :=
      { r with family_name := p.family_name, given_name := p.given_name,
               gender := p.gender, birth_date := bd,
               medical_summary := some p.medical_summary, updated_at := now }
    if patientRowOk r2 then .ok r2
    else .error "new row for relation patients violates a constraint"

/-- `PUT /fhir/Patient/id` body: existence check, then full update. -/
def update_patient_body (pid : String) (p : PatientPayload) (now : Nat) (db : DB) :
    Except BodyErr (String × DB) :=
  if db.patients.any (fun r => r.id == pid) then
    match mapRowsM pid (replaceRow p now) db.patients with
    | .error m => .error (.pgE m)
    | .ok ps => .ok ("Paciente actualizado completamente", { db with patients := ps })
  else .error (.httpE 404 ("Paciente " ++ pid ++ " no encontrado"))

/-- `PUT /fhir/Patient/id`. -/
def update_patient (today : Date) (now : Nat) (auditOk : Bool)
    (pid : String) (p : PatientPayload) (db : DB) : Except HTTPError (String × DB) :=
  match validatePatient today p with
  | .error m => .error ⟨422, m⟩
  | .ok _ =>
    match get_db_connection_result (update_patient_body pid p now db) with
    | .error e => .error e
    | .ok (msg, db1) => .ok (msg, log_event auditOk now "PUT" "Patient" pid db1)

/-- The column a supplied `PatientUpdate` field is written to; the
externally visible `birthDate` maps to the `birth_date` column. -/
inductive PatchField where
  | family_name | given_name | gender | birthDate | medical_summary
deriving DecidableEq, Repr

/-- `updates.dict(exclude_unset=True)`: the supplied fields, in model
declaration order, with their (possibly null) values. -/
def PatientUpdate.setFields (u : PatientUpdate) : List (PatchField × Option String) :=
  (match u.family_name with | some v => [(.family_name, v)] | none => []) ++
  (match u.given_name with | some v => [(.given_name, v)] | none => []) ++
  (match u.gender with | some v => [(.gender, v)] | none => []) ++
  (match u.birthDate with | some v => [(.birthDate, v)] | none => []) ++
  (match u.medical_summary with | some v => [(.medical_summary, v)] | none => [])

/-- One `SET column = value` assignment of the dynamic patch `UPDATE`,
with the storage constraints of that column: every column except
`medical_summary` is `NOT NULL`, `gender` also carries the CHECK
constraint, and `birth_date` must parse as a date. -/
def applyField (r : PatientRow) : PatchField × Option String → Except String PatientRow
  | (.family_name, none) =>
    .error "null value in column family_name violates not-null constraint"
  | (.family_name, some s) =>
    if s.length ≤ 100 then .ok { r with family_name := s }
    else .error "value too long for type character varying(100)"
  | (.given_name, none) =>
    .error "null value in column given_name violates not-null constraint"
  | (.given_name, some s) =>
    if s.length ≤ 100 then .ok { r with given_name := s }
    else .error "value too long for type character varying(100)"
  | (.gender, none) =>
    .error "null value in column gender violates not-null constraint"
  | (.gender, some s) =>
    if s.length ≤ 10 then
      if genderOk s then .ok { r with gender := s }
      else .error "new row for relation patients violates check constraint"
    else .error "value too long for type character varying(10)"
  | (.birthDate, none) =>
    .error "null value in column birth_date violates not-null constraint"
  | (.birthDate, some s) =>
    match parseISODate s with
    | some d => .ok { r with birth_date := d }
    | none => .error "invalid input syntax for type date"
  | (.medical_summary, v) => .ok { r with medical_summary := v }

/-- The dynamic `UPDATE patients SET f1 = v1, ..., updated_at = CURRENT_TIMESTAMP`
built by patch_patient, applied to one row. -/
def patchRow (fields : List (PatchField × Option String)) (now : Nat)
    (r : PatientRow) : Except String PatientRow := do
  let r2 ← fields.foldlM applyField r
  .ok { r2 with updated_at := now }

/-- `PATCH /fhir/Patient/id` body: existence check, build the dynamic
field list, reject an empty list, then update the named columns. -/
def patch_patient_body (pid : String) (u : PatientUpdate) (now : Nat) (db : DB) :
    Except BodyErr (String × DB) :=
  if db.patients.any (fun r => r.id == pid) then
    if u.setFields.isEmpty then
      .error (.httpE 400 "No se proporcionaron campos para actualizar")
    else
      match mapRowsM pid (patchRow u.setFields now) db.patients with
      | .error m => .error (.pgE m)
      | .ok ps => .ok ("Paciente actualizado parcialmente", { db with patients := ps })
  else .error (.httpE 404 ("Paciente " ++ pid ++ " no encontrado"))

/-- `PATCH /fhir/Patient/id`. -/
def patch_patient (now : Nat) (auditOk : Bool)
    (pid : String) (u : PatientUpdate) (db : DB) : Except HTTPError (String × DB) :=
  match validatePatientUpdate u with
  | .error m => .error ⟨422, m⟩
  | .ok _ =>
    match get_db_connection_result (patch_patient_body pid u now db) with
    | .error e => .error e
    | .ok (msg, db1) => .ok (msg, log_event auditOk now "PATCH" "Patient" pid db1)

/-- `DELETE /fhir/Patient/id` body: existence check, count the patient's
observations, delete the patient row; the `ON DELETE CASCADE` clause of
the foreign key removes the observations in the same transaction. -/
def delete_patient_body (pid : String) (db : DB) : Except BodyErr (Nat × DB) :=
  if db.patients.any (fun r => r.id == pid) then
    let obsCount := (db.observations.filter (fun o => o.patient_id == pid)).length
    .ok (obsCount,
      { db with patients := db.patients.filter (fun r => !(r.id == pid)),
                observations := db.observations.filter (fun o => !(o.patient_id == pid)) })
  else .error (.httpE 404 ("Paciente " ++ pid ++ " no encontrado"))

/-- `DELETE /fhir/Patient/id`. -/
def delete_patient (now : Nat) (auditOk : Bool) (pid : String) (db : DB) :
    Except HTTPError (Nat × DB) :=
  match get_db_connection_result (delete_patient_body pid db) with
  | .error e => .error e
  | .ok (n, db1) => .ok (n, log_event auditOk now "DELETE" "Patient" pid db1)

/-! ### Observation repository -/

/-- Listing order of `get_observations`: `ORDER BY date DESC, created_at DESC`
(`obsDesc a b` means `a` may come before `b`). -/
def obsDesc (a b : ObservationRow) : Prop :=
  dateLt b.date a.date = true ∨ (b.date = a.date ∧ b.created_at ≤ a.created_at)

instance : DecidableRel obsDesc := fun a b => by unfold obsDesc; infer_instance

/-- `GET /fhir/Observation/patient_id`: existence check, then the ordered
listing of the patient's observations; read-only. -/
def get_observations (pid : String) (db : DB) : Except HTTPError (List ObservationRow) :=
  get_db_connection_result
    (if db.patients.any (fun r => r.id == pid) then
      .ok (List.insertionSort obsDesc
        (db.observations.filter (fun o => o.patient_id == pid)))
    else .error (.httpE 404 ("Paciente " ++ pid ++ " no encontrado")))

/-- Row-level constraints of the `observations` table. -/
def observationRowOk (r : ObservationRow) : Bool :=
  r.id.length ≤ 50 && r.patient_id.length ≤ 50 && r.category.length ≤ 50 &&
  r.code.length ≤ 50 && r.display.length ≤ 100 && r.unit.length ≤ 20

/-- `POST /fhir/Observation` body: patient-existence check, then insert
with the server-generated id (`str(uuid.uuid4())`, a parameter here). -/
def create_observation_body (newId : String) (o : ObservationPayload) (now : Nat)
    (db : DB) : Except BodyErr (String × DB) :=
  if db.patients.any (fun r => r.id == o.patient_id) then
    match parseISODate o.date with
    | none => .error (.pgE "invalid input syntax for type date")
    | some d =>
      let r : ObservationRow :=
        ⟨newId, o.patient_id, o.category, o.code, o.display, o.value, o.unit, d, now⟩
      if db.observations.any (fun q => q.id == newId) then
        .error (.pgE "duplicate key value violates unique constraint observations_pkey")
      else if observationRowOk r then
        .ok (newId, { db with observations := db.observations ++ [r] })
      else .error (.pgE "new row for relation observations violates a constraint")
  else .error (.httpE 404 ("Paciente " ++ o.patient_id ++ " no existe"))

/-- `POST /fhir/Observation`. -/
def create_observation (now : Nat) (auditOk : Bool) (newId : String)
    (o : ObservationPayload) (db : DB) : Except HTTPError (String × DB) :=
  match validateObservation o with
  | .error m => .error ⟨422, m⟩
  | .ok _ =>
    match get_db_connection_result (create_observation_body newId o now db) with
    | .error e => .error e
    | .ok (oid, db1) => .ok (oid, log_event auditOk now "CREATE" "Observation" oid db1)

/-! ### Search -/

/-- Python `str.lower` / SQL `LOWER`, on the character list (ASCII case map). -/
def lowerStr (s : String) : List Char := s.data.map Char.toLower

/-- SQL `LIKE` pattern matching: `%` matches any sequence (a leading `%`
matches the rest of the pattern against some suffix), an unescaped `_`
matches any single character, a backslash escapes the next pattern
character (a trailing lone backslash matches nothing; the engine rejects
such patterns).  The patterns built by the server interpolate the raw
search string, so these metacharacters are live. -/
def likeMatch : List Char → List Char → Bool
  | [], s => s.isEmpty
  | p :: ps, [] => if p = '%' then likeMatch ps [] else false
  | [p], c :: t =>
    if p = '%' then (c :: t).tails.any (fun u => likeMatch [] u)
    else if p = '\\' then false
    else (if p = '_' then true else p == c) && likeMatch [] t
  | p :: q :: ps2, c :: t =>
    if p = '%' then (c :: t).tails.any (fun u => likeMatch (q :: ps2) u)
    else if p = '\\' then q == c && likeMatch ps2 t
    else (if p = '_' then true else p == c) && likeMatch (q :: ps2) t

/-- The `ORDER BY family_name, given_name` ordering of the search result. -/
def searchLe (a b : PatientRow) : Prop :=
  a.family_name < b.family_name ∨
    (a.family_name = b.family_name ∧ a.given_name ≤ b.given_name)

instance : DecidableRel searchLe := fun a b => by unfold searchLe; infer_instance

/-- `GET /fhir/Patient/search` after the needle was lowercased: filter by
`LOWER(family_name) LIKE pat OR LOWER(given_name) LIKE pat` with
`pat = "%" + lowered + "%"`, then sort. -/
def search_lower (low : List Char) (db : DB) : List PatientRow :=
  let pat := '%' :: (low ++ ['%'])
  List.insertionSort searchLe
    (db.patients.filter (fun r =>
      likeMatch pat (lowerStr r.family_name) || likeMatch pat (lowerStr r.given_name)))

/-- `GET /fhir/Patient/search?name=`: the needle is lowercased once
(`name.lower()`) and interpolated into both LIKE patterns. -/
def search_patients (name : String) (db : DB) : List PatientRow :=
  search_lower (lowerStr name) db

/-! ### The mutating operations as one step relation -/

/-- One mutating request (the observation id generated by `uuid.uuid4()`
is a parameter of the create-observation step). -/
inductive Op where
  | createP (p : PatientPayload)
  | putP (pid : String) (p : PatientPayload)
  | patchP (pid : String) (u : PatientUpdate)
  | deleteP (pid : String)
  | createO (newId : String) (o : ObservationPayload)

/-- Run one mutating request against the store. -/
def runOp (today : Date) (now : Nat) (auditOk : Bool) : Op → DB → Except HTTPError DB
  | .createP p, db => (create_patient today now auditOk p db).map (fun x => x.2)
  | .putP pid p, db => (update_patient today now auditOk pid p db).map (fun x => x.2)
  | .patchP pid u, db => (patch_patient now auditOk pid u db).map (fun x => x.2)
  | .deleteP pid, db => (delete_patient now auditOk pid db).map (fun x => x.2)
  | .createO nid o, db => (create_observation now auditOk nid o db).map (fun x => x.2)

/-- Audit action recorded for a request. -/
def opAction : Op → String
  | .createP _ => "CREATE"
  | .putP _ _ => "PUT"
  | .patchP _ _ => "PATCH"
  | .deleteP _ => "DELETE"
  | .createO _ _ => "CREATE"

/-- Audit resource kind recorded for a request. -/
def opResource : Op → String
  | .createO _ _ => "Observation"
  | _ => "Patient"

/-- Audit resource id recorded for a request. -/
def opRid : Op → String
  | .createP p => p.id
  | .putP pid _ => pid
  | .patchP pid _ => pid
  | .deleteP pid => pid
  | .createO nid _ => nid

/-! ### Concrete fixtures used by witnesses and counterexamples -/

/-- A reference current date. -/
def today0 : Date := ⟨2026, 10, 12⟩

/-- A valid patient payload. -/
def payW : PatientPayload := ⟨"p1", "Smith", "Ann", "male", "2000-01-02", "s"⟩

/-- The empty store. -/
def db0 : DB := ⟨[], [], []⟩

/-- A stored row for patient p1. -/
def rowW : PatientRow := ⟨"p1", "Smith", "Ann", "male", ⟨2000, 1, 2⟩, some "s", 0, 0⟩

/-- A store holding exactly patient p1. -/
def db1 : DB := ⟨[rowW], [], []⟩

/-- A valid observation payload referencing p1. -/
def obsW : ObservationPayload :=
  ⟨"p1", "vital-signs", "8310-5", "Temperatura", (37 : Rat), "C", "2020-01-01"⟩

/-- A patch payload setting only gender to other. -/
def u7 : PatientUpdate := { gender := some (some "other") }

/-! ### C1 -/

/-- C1: the claim says the five operations referencing an absent patient
id fail with NotFound surfaced as a client error and not as a generic
server error.  Evaluating the code at the failing inputs: each deliberate
`HTTPException(404, ...)` is raised inside the `with get_db_connection()`
body, thrown back into the context manager at its `yield`, caught by its
`except Exception` clause and re-raised as `HTTPException(500,
"Error inesperado: ...")` — a generic server error, not a 404. -/
theorem missing_patient_surfaced_as_500 :
    update_patient today0 5 true "p1" payW db0 =
      .error ⟨500, "Error inesperado: 404: Paciente p1 no encontrado"⟩ ∧
    patch_patient 5 true "p1" u7 db0 =
      .error ⟨500, "Error inesperado: 404: Paciente p1 no encontrado"⟩ ∧
    delete_patient 5 true "p1" db0 =
      .error ⟨500, "Error inesperado: 404: Paciente p1 no encontrado"⟩ ∧
    get_observations "p1" db0 =
      .error ⟨500, "Error inesperado: 404: Paciente p1 no encontrado"⟩ ∧
    create_observation 5 true "o1" obsW db0 =
      .error ⟨500, "Error inesperado: 404: Paciente p1 no existe"⟩ := by
  exact ⟨rfl, rfl, rfl, rfl, rfl⟩

/-! ### C2 -/

/-- C2: the claim says creating a duplicate patient id fails with
Conflict surfaced as a client error.  Evaluating the code: the body's
`HTTPException(400, "El paciente ... ya existe")` is re-wrapped by the
context manager into a generic 500 server error; the store is untouched
(the duplicate check precedes the `INSERT`, and the transaction is
rolled back). -/
theorem duplicate_create_surfaced_as_500 :
    create_patient today0 6 true payW db1 =
      .error ⟨500, "Error inesperado: 400: El paciente p1 ya existe"⟩ := by
  exact rfl

/-! ### C6 -/

/-- C6: the claim says patch with an empty supplied field set fails with
BadRequest surfaced as a client error and performs no write.  Evaluating
the code on an existing patient and an empty payload: the body's
`HTTPException(400, "No se proporcionaron campos para actualizar")` is
re-wrapped by the context manager into a generic 500 server error (no
write is indeed performed — the error result carries no new store). -/
theorem empty_patch_surfaced_as_500 :
    patch_patient 5 true "p1" {} db1 =
      .error ⟨500, "Error inesperado: 400: No se proporcionaron campos para actualizar"⟩ := by
  exact rfl

/-! ### C4 -/

/-- If an index inside the left string holds a differing character, no
right-extension of the left string equals the other string. -/
theorem append_ne_of_get_ne (p q : String) (i : Nat) (hi : i < p.data.length)
    (hc : p.data[i]? ≠ q.data[i]?) : ∀ s, p ++ s ≠ q := by
  intro s h
  apply hc
  have hd : p.data ++ s.data = q.data := by
    rw [← String.data_append, h]
  rw [← hd, List.getElem?_append_left hi]

/-- The malformed-date message differs from both range-violation messages,
whatever the offending input string is. -/
theorem msgMalformed_distinct (v : String) :
    msgMalformed v ≠ msgFuture ∧ msgMalformed v ≠ msgTooOld := by
  unfold msgMalformed msgFuture msgTooOld
  constructor <;>
    exact append_ne_of_get_ne _ _ 16 (by decide) (by decide) v

/-- Unfolding of the birth-date validator on a string that parses. -/
theorem validate_birthdate_some {v : String} {d today : Date}
    (hp : parseISODate v = some d) :
    validate_birthdate v today =
      (if dateLt today d then .error msgFuture
       else if dateLt d ⟨1900, 1, 1⟩ then .error msgTooOld
       else .ok v) := by
  unfold validate_birthdate
  rw [hp]

/-- Unfolding of the birth-date validator on a malformed string. -/
theorem validate_birthdate_none {v : String} {today : Date}
    (hp : parseISODate v = none) :
    validate_birthdate v today = .error (msgMalformed v) := by
  unfold validate_birthdate
  rw [hp]

/-- C4: full-payload birth-date validation accepts exactly the strings
parsing as an ISO calendar date whose date lies in [1900-01-01, today]:
the boundary dates behave as the claim states, and a malformed string is
rejected with a message distinct from both range errors. -/
theorem birthdate_validation (today : Date)
    (h1900 : dateLe ⟨1900, 1, 1⟩ today = true) :
    (∀ v, validate_birthdate v today = .ok v ↔
      ∃ d, parseISODate v = some d ∧
        dateLe ⟨1900, 1, 1⟩ d = true ∧ dateLe d today = true) ∧
    validate_birthdate "1899-12-31" today = .error msgTooOld ∧
    validate_birthdate "1900-01-01" today = .ok "1900-01-01" ∧
    (∀ v, parseISODate v = some today → validate_birthdate v today = .ok v) ∧
    (∀ v d, parseISODate v = some d → dateLt today d = true →
      validate_birthdate v today = .error msgFuture) ∧
    (∀ v, parseISODate v = none →
      validate_birthdate v today = .error (msgMalformed v) ∧
      msgMalformed v ≠ msgFuture ∧ msgMalformed v ≠ msgTooOld) := by
  have hiff : ∀ v, validate_birthdate v today = .ok v ↔
      ∃ d, parseISODate v = some d ∧
        dateLe ⟨1900, 1, 1⟩ d = true ∧ dateLe d today = true := by
    intro v
    rcases hp : parseISODate v with _ | d
    · rw [validate_birthdate_none hp]
      simp
    · rw [validate_birthdate_some hp]
      obtain ⟨ty, tm, td⟩ := today
      obtain ⟨y, m, dd⟩ := d
      rcases hlt : dateLt ⟨ty, tm, td⟩ ⟨y, m, dd⟩ with _ | _
      · rcases hlt2 : dateLt ⟨y, m, dd⟩ ⟨1900, 1, 1⟩ with _ | _
        · have h1 : ¬(dateLt ⟨ty, tm, td⟩ ⟨y, m, dd⟩ = true) := by simp [hlt]
          have h2 : ¬(dateLt ⟨y, m, dd⟩ ⟨1900, 1, 1⟩ = true) := by simp [hlt2]
          rw [dateLt_iff] at h1 h2
          simp only [hlt, hlt2, Bool.false_eq_true, if_false]
          constructor
          · intro _
            refine ⟨⟨y, m, dd⟩, rfl, ?_, ?_⟩ <;>
              · rw [dateLe_iff]
                simp only at h1 h2 ⊢
                omega
          · intro _; trivial
        · simp only [hlt, hlt2, Bool.false_eq_true, if_false, if_true]
          constructor
          · intro h; cases h
          · rintro ⟨d2, hd2, hge, hle⟩
            cases hd2
            rw [dateLe_iff] at hge
            rw [dateLt_iff] at hlt2
            simp only at hge hlt2
            omega
      · simp only [hlt, if_true]
        constructor
        · intro h; cases h
        · rintro ⟨d2, hd2, hge, hle⟩
          cases hd2
          rw [dateLe_iff] at hle
          rw [dateLt_iff] at hlt
          simp only at hle hlt
          omega
  refine ⟨hiff, ?_, ?_, ?_, ?_, ?_⟩
  · rw [validate_birthdate_some (show parseISODate "1899-12-31" =
      some ⟨1899, 12, 31⟩ from rfl)]
    obtain ⟨ty, tm, td⟩ := today
    rw [dateLe_iff] at h1900
    simp only at h1900
    have hlt : dateLt ⟨ty, tm, td⟩ ⟨1899, 12, 31⟩ = false := by
      rw [← Bool.not_eq_true, dateLt_iff]
      simp only
      omega
    rw [hlt]
    simp [show dateLt ⟨1899, 12, 31⟩ ⟨1900, 1, 1⟩ = true by decide]
  · rw [hiff]
    exact ⟨⟨1900, 1, 1⟩, rfl, by rw [dateLe_iff]; simp, h1900⟩
  · intro v hv
    rw [hiff]
    refine ⟨today, hv, h1900, ?_⟩
    rw [dateLe_iff]
    simp
  · intro v d hv hlt
    rw [validate_birthdate_some hv, hlt]
    simp
  · intro v hv
    exact ⟨validate_birthdate_none hv, msgMalformed_distinct v⟩

/-- C4 witness at a concrete current date. -/
theorem birthdate_validation_witness :
    validate_birthdate "1899-12-31" today0 = .error msgTooOld ∧
    validate_birthdate "1900-01-01" today0 = .ok "1900-01-01" ∧
    validate_birthdate "2026-10-12" today0 = .ok "2026-10-12" ∧
    validate_birthdate "2026-10-13" today0 = .error msgFuture ∧
    validate_birthdate "13/13/2020" today0 = .error (msgMalformed "13/13/2020") := by
  have h := birthdate_validation today0 (by decide)
  exact ⟨h.2.1, h.2.2.1, h.2.2.2.1 "2026-10-12" (by decide),
    h.2.2.2.2.1 "2026-10-13" ⟨2026, 10, 13⟩ (by decide) (by decide),
    (h.2.2.2.2.2 "13/13/2020" (by decide)).1⟩

/-! ### C5 -/

/-- A patch payload whose birth date is present and malformed. -/
def uBadDate : PatientUpdate := { birthDate := some (some "13/13/2020") }

/-- A patch payload whose gender is present, non-empty and invalid. -/
def uBadGender : PatientUpdate := { gender := some (some "zz") }

/-- C5 counterexample: a present birth_date is NOT validated in a partial
payload — the malformed string 13/13/2020 passes `PatientUpdate`
validation (no validator exists for that field) and the request reaches
the repository, failing there as a storage error instead of being
rejected up front. -/
theorem partial_validation_skips_birthdate :
    validatePatientUpdate uBadDate = .ok uBadDate ∧
    parseISODate "13/13/2020" = none ∧
    patch_patient 5 true "p1" uBadDate db1 =
      .error ⟨500, "Error de base de datos: invalid input syntax for type date"⟩ := by
  exact ⟨rfl, rfl, rfl⟩

/-- The only rule partial validation enforces: a supplied gender may be
null or empty, otherwise it must belong to the enumeration. -/
def genderRuleLax (u : PatientUpdate) : Bool :=
  match u.gender with
  | some (some g) => g == "" || genderOk g
  | _ => true

/-- C5 amended: in a partial payload only the gender field is validated,
and only when it is present, non-null and non-empty (then it must be in
the enumeration); a violating payload is rejected as a validation error
before any repository call; the birth-date field never influences
validation. -/
theorem partial_validation_amended (u : PatientUpdate) (now : Nat) (b : Bool)
    (pid : String) (db : DB) :
    (validatePatientUpdate u = .ok u ↔ genderRuleLax u = true) ∧
    (∀ s, (validatePatientUpdate { u with birthDate := s }).isOk =
      (validatePatientUpdate u).isOk) ∧
    (∀ m, validatePatientUpdate u = .error m →
      patch_patient now b pid u db = .error ⟨422, m⟩) := by
  refine ⟨?_, ?_, ?_⟩
  · unfold validatePatientUpdate genderRuleLax
    rcases hg : u.gender with _ | (_ | g)
    · simp
    · simp
    · by_cases hg0 : g = ""
      · simp [hg0]
      · rcases hgo : genderOk g with _ | _ <;> simp [hg0, hgo]
  · intro s
    unfold validatePatientUpdate
    rcases hg : u.gender with _ | (_ | g)
    · simp [hg, Except.isOk, Except.toBool]
    · simp [hg, Except.isOk, Except.toBool]
    · by_cases hg0 : g = ""
      · simp [hg, hg0, Except.isOk, Except.toBool]
      · rcases hgo : genderOk g with _ | _ <;>
          simp [hg, hg0, hgo, Except.isOk, Except.toBool]
  · intro m hm
    simp [patch_patient, hm]

/-- C5 amended witness: an invalid non-empty gender in a partial payload
is rejected with the validation error, before any storage access. -/
theorem partial_validation_amended_witness :
    patch_patient 5 true "p1" uBadGender db1 = .error ⟨422, msgGender⟩ :=
  (partial_validation_amended uBadGender 5 true "p1" db1).2.2 msgGender rfl

/-! ### C10 -/

/-- Unfolding lemma: binding a success in the `Except` monad. -/
theorem except_bind_ok {α β γ : Type} (a : α) (f : α → Except γ β) :
    (Except.ok a >>= f) = f a := rfl

/-- Unfolding lemma: binding a failure in the `Except` monad. -/
theorem except_bind_error {α β γ : Type} (e : γ) (f : α → Except γ β) :
    ((Except.error e : Except γ α) >>= f) = .error e := rfl

/-- If the per-row update fails uniformly and some row matches, the whole
`UPDATE` statement fails with that storage error. -/
theorem mapRowsM_error {pid : String} {f : PatientRow → Except String PatientRow}
    {m : String} (hf : ∀ r, f r = .error m) :
    ∀ ps : List PatientRow, ps.any (fun r => r.id == pid) = true →
      mapRowsM pid f ps = .error m := by
  intro ps
  induction ps with
  | nil => simp
  | cons r rs ih =>
    intro h
    rcases hr : r.id == pid with _ | _
    · have h2 : rs.any (fun r => r.id == pid) = true := by
        simpa [List.any_cons, hr] using h
      simp [mapRowsM, hr, ih h2, except_bind_ok, except_bind_error]
    · simp [mapRowsM, hr, hf r, except_bind_ok, except_bind_error]

/-- The partial-update payload that explicitly sets one field to null. -/
def setNull : PatchField → PatientUpdate
  | .family_name => { family_name := some none }
  | .given_name => { given_name := some none }
  | .gender => { gender := some none }
  | .birthDate => { birthDate := some none }
  | .medical_summary => { medical_summary := some none }

/-- C10: a patch payload explicitly setting a NOT NULL column's field to
null passes `PatientUpdate` validation (the gender rule is skipped on a
null value and no rule exists for the other fields), so the update
reaches the storage layer, whose not-null constraint rejects it, and the
request fails as a generic 500 storage error, not as a validation error
naming the field. -/
theorem null_patch_bypasses_validation (now : Nat) (b : Bool) (pid : String)
    (db : DB) (f : PatchField)
    (hex : db.patients.any (fun r => r.id == pid) = true)
    (hf : f ≠ .medical_summary) :
    validatePatientUpdate (setNull f) = .ok (setNull f) ∧
    ∃ m, patch_patient now b pid (setNull f) db =
      .error ⟨500, "Error de base de datos: " ++ m⟩ := by
  cases f with
  | medical_summary => exact absurd rfl hf
  | family_name =>
    refine ⟨rfl, "null value in column family_name violates not-null constraint", ?_⟩
    have hrow : ∀ r, patchRow [(PatchField.family_name, none)] now r =
        .error "null value in column family_name violates not-null constraint" := by
      intro r; rfl
    simp [patch_patient, validatePatientUpdate, patch_patient_body, setNull,
      hex, PatientUpdate.setFields, mapRowsM_error hrow db.patients hex,
      get_db_connection_result]
  | given_name =>
    refine ⟨rfl, "null value in column given_name violates not-null constraint", ?_⟩
    have hrow : ∀ r, patchRow [(PatchField.given_name, none)] now r =
        .error "null value in column given_name violates not-null constraint" := by
      intro r; rfl
    simp [patch_patient, validatePatientUpdate, patch_patient_body, setNull,
      hex, PatientUpdate.setFields, mapRowsM_error hrow db.patients hex,
      get_db_connection_result]
  | gender =>
    refine ⟨rfl, "null value in column gender violates not-null constraint", ?_⟩
    have hrow : ∀ r, patchRow [(PatchField.gender, none)] now r =
        .error "null value in column gender violates not-null constraint" := by
      intro r; rfl
    simp [patch_patient, validatePatientUpdate, patch_patient_body, setNull,
      hex, PatientUpdate.setFields, mapRowsM_error hrow db.patients hex,
      get_db_connection_result]
  | birthDate =>
    refine ⟨rfl, "null value in column birth_date violates not-null constraint", ?_⟩
    have hrow : ∀ r, patchRow [(PatchField.birthDate, none)] now r =
        .error "null value in column birth_date violates not-null constraint" := by
      intro r; rfl
    simp [patch_patient, validatePatientUpdate, patch_patient_body, setNull,
      hex, PatientUpdate.setFields, mapRowsM_error hrow db.patients hex,
      get_db_connection_result]

/-- C10 witness: patching patient p1 with gender explicitly null. -/
theorem null_patch_bypasses_validation_witness :
    validatePatientUpdate (setNull .gender) = .ok (setNull .gender) ∧
    ∃ m, patch_patient 5 true "p1" (setNull .gender) db1 =
      .error ⟨500, "Error de base de datos: " ++ m⟩ :=
  null_patch_bypasses_validation 5 true "p1" db1 .gender (by decide) (by decide)

/-! ### C7 -/

/-- A single `SET` assignment writes exactly its own column: identifier,
timestamps and every other column are untouched. -/
theorem applyField_frame {r r2 : PatientRow} {k : PatchField} {v : Option String}
    (h : applyField r (k, v) = .ok r2) :
    r2.id = r.id ∧ r2.created_at = r.created_at ∧ r2.updated_at = r.updated_at ∧
    (k ≠ .family_name → r2.family_name = r.family_name) ∧
    (k ≠ .given_name → r2.given_name = r.given_name) ∧
    (k ≠ .gender → r2.gender = r.gender) ∧
    (k ≠ .birthDate → r2.birth_date = r.birth_date) ∧
    (k ≠ .medical_summary → r2.medical_summary = r.medical_summary) := by
  cases k <;> cases v <;>
    simp only [applyField] at h <;>
    (try split at h) <;> (try split at h) <;>
    first
      | (cases h; simp)
      | simp at h

/-- The fold of `SET` assignments touches only the columns named in the
field list (and never the identifier or the timestamps). -/
theorem foldlM_applyField_frame :
    ∀ (fs : List (PatchField × Option String)) (r r2 : PatientRow),
      List.foldlM applyField r fs = .ok r2 →
      r2.id = r.id ∧ r2.created_at = r.created_at ∧ r2.updated_at = r.updated_at ∧
      ((fs.all fun kv => !(kv.1 == PatchField.family_name)) = true →
        r2.family_name = r.family_name) ∧
      ((fs.all fun kv => !(kv.1 == PatchField.given_name)) = true →
        r2.given_name = r.given_name) ∧
      ((fs.all fun kv => !(kv.1 == PatchField.gender)) = true →
        r2.gender = r.gender) ∧
      ((fs.all fun kv => !(kv.1 == PatchField.birthDate)) = true →
        r2.birth_date = r.birth_date) ∧
      ((fs.all fun kv => !(kv.1 == PatchField.medical_summary)) = true →
        r2.medical_summary = r.medical_summary) := by
  intro fs
  induction fs with
  | nil =>
    intro r r2 h
    cases h
    simp
  | cons a l ih =>
    intro r r2 h
    rw [List.foldlM_cons] at h
    rcases ha : applyField r a with e | r1
    · rw [ha, except_bind_error] at h
      cases h
    · rw [ha, except_bind_ok] at h
      obtain ⟨k, v⟩ := a
      have hstep := applyField_frame ha
      have hrest := ih r1 r2 h
      have keyOf : ∀ kk : PatchField,
          ((((k, v) :: l).all fun kv => !(kv.1 == kk)) = true) →
          k ≠ kk ∧ (l.all fun kv => !(kv.1 == kk)) = true := by
        intro kk hall
        rw [List.all_cons] at hall
        have h1 := (Bool.and_eq_true _ _).mp hall
        refine ⟨?_, h1.2⟩
        have := h1.1
        simpa using this
      refine ⟨?_, ?_, ?_, ?_, ?_, ?_, ?_, ?_⟩
      · rw [hrest.1, hstep.1]
      · rw [hrest.2.1, hstep.2.1]
      · rw [hrest.2.2.1, hstep.2.2.1]
      · intro hall
        obtain ⟨hk, hl⟩ := keyOf _ hall
        rw [hrest.2.2.2.1 hl, hstep.2.2.2.1 hk]
      · intro hall
        obtain ⟨hk, hl⟩ := keyOf _ hall
        rw [hrest.2.2.2.2.1 hl, hstep.2.2.2.2.1 hk]
      · intro hall
        obtain ⟨hk, hl⟩ := keyOf _ hall
        rw [hrest.2.2.2.2.2.1 hl, hstep.2.2.2.2.2.1 hk]
      · intro hall
        obtain ⟨hk, hl⟩ := keyOf _ hall
        rw [hrest.2.2.2.2.2.2.1 hl, hstep.2.2.2.2.2.2.1 hk]
      · intro hall
        obtain ⟨hk, hl⟩ := keyOf _ hall
        rw [hrest.2.2.2.2.2.2.2 hl, hstep.2.2.2.2.2.2.2 hk]

/-- The whole patch `UPDATE` on one row: refreshes `updated_at`, keeps
`id` and `created_at`, and keeps every column whose field is absent. -/
theorem patchRow_frame {fs : List (PatchField × Option String)} {now : Nat}
    {r r2 : PatientRow} (h : patchRow fs now r = .ok r2) :
    r2.updated_at = now ∧ r2.id = r.id ∧ r2.created_at = r.created_at ∧
    ((fs.all fun kv => !(kv.1 == PatchField.family_name)) = true →
      r2.family_name = r.family_name) ∧
    ((fs.all fun kv => !(kv.1 == PatchField.given_name)) = true →
      r2.given_name = r.given_name) ∧
    ((fs.all fun kv => !(kv.1 == PatchField.gender)) = true →
      r2.gender = r.gender) ∧
    ((fs.all fun kv => !(kv.1 == PatchField.birthDate)) = true →
      r2.birth_date = r.birth_date) ∧
    ((fs.all fun kv => !(kv.1 == PatchField.medical_summary)) = true →
      r2.medical_summary = r.medical_summary) := by
  unfold patchRow at h
  rcases hf : List.foldlM applyField r fs with e | r1
  · rw [hf, except_bind_error] at h
    cases h
  · rw [hf, except_bind_ok] at h
    cases h
    have hfr := foldlM_applyField_frame fs r r1 hf
    exact ⟨rfl, hfr.1, hfr.2.1, fun ha => hfr.2.2.2.1 ha,
      fun ha => hfr.2.2.2.2.1 ha, fun ha => hfr.2.2.2.2.2.1 ha,
      fun ha => hfr.2.2.2.2.2.2.1 ha, fun ha => hfr.2.2.2.2.2.2.2 ha⟩

/-- When the per-row update always succeeds with the same shape, the
SQL `UPDATE ... WHERE id = pid` maps exactly the matching rows. -/
theorem mapRowsM_ok_map {pid : String} {f : PatientRow → Except String PatientRow}
    {g : PatientRow → PatientRow} (hf : ∀ r, f r = .ok (g r)) :
    ∀ ps : List PatientRow, mapRowsM pid f ps =
      .ok (ps.map (fun r => if r.id == pid then g r else r)) := by
  intro ps
  induction ps with
  | nil => rfl
  | cons r rs ih =>
    rcases hr : r.id == pid with _ | _
    · have hr2 : ¬(r.id = pid) := by simpa using hr
      simp [mapRowsM, hr, hr2, hf r, ih, except_bind_ok]
    · have hr2 : r.id = pid := by simpa using hr
      simp [mapRowsM, hr, hr2, hf r, ih, except_bind_ok]

/-- Pointwise description of a successful `UPDATE ... WHERE id = pid`:
matching rows are rewritten by the row update, the others are unchanged. -/
theorem mapRowsM_forall2 {pid : String} {f : PatientRow → Except String PatientRow} :
    ∀ (ps l : List PatientRow), mapRowsM pid f ps = .ok l →
      List.Forall₂ (fun r r2 => ((r.id == pid) = true → f r = .ok r2) ∧
        ((r.id == pid) = false → r2 = r)) ps l := by
  intro ps
  induction ps with
  | nil =>
    intro l h
    cases h
    exact List.Forall₂.nil
  | cons r rs ih =>
    intro l h
    rcases hr : r.id == pid with _ | _
    · simp only [mapRowsM, hr, Bool.false_eq_true, if_false, except_bind_ok] at h
      rcases hm : mapRowsM pid f rs with e | l2
      · rw [hm, except_bind_error] at h
        cases h
      · rw [hm, except_bind_ok] at h
        cases h
        exact List.Forall₂.cons
          ⟨fun hc => (by rw [hr] at hc; simp at hc), fun _ => rfl⟩ (ih l2 hm)
    · simp only [mapRowsM, hr, if_true] at h
      rcases hfr : f r with e | r2
      · rw [hfr, except_bind_error] at h
        cases h
      · rw [hfr, except_bind_ok] at h
        rcases hm : mapRowsM pid f rs with e | l2
        · rw [hm, except_bind_error] at h
          cases h
        · rw [hm, except_bind_ok] at h
          cases h
          exact List.Forall₂.cons
            ⟨fun _ => hfr, fun hc => (by rw [hr] at hc; simp at hc)⟩ (ih l2 hm)

/-- A field left unset by the payload never appears in the dynamic field
list built by `dict(exclude_unset=True)`. -/
theorem setFields_all_absent (u : PatientUpdate) :
    (u.family_name = none →
      (u.setFields.all fun kv => !(kv.1 == PatchField.family_name)) = true) ∧
    (u.given_name = none →
      (u.setFields.all fun kv => !(kv.1 == PatchField.given_name)) = true) ∧
    (u.gender = none →
      (u.setFields.all fun kv => !(kv.1 == PatchField.gender)) = true) ∧
    (u.birthDate = none →
      (u.setFields.all fun kv => !(kv.1 == PatchField.birthDate)) = true) ∧
    (u.medical_summary = none →
      (u.setFields.all fun kv => !(kv.1 == PatchField.medical_summary)) = true) := by
  obtain ⟨fn, gn, ge, bd, ms⟩ := u
  rcases fn with _ | a <;> rcases gn with _ | b2 <;> rcases ge with _ | c <;>
    rcases bd with _ | d <;> rcases ms with _ | e <;>
    simp [PatientUpdate.setFields]

/-- C7: patch with a non-empty field set updates, for the matching
patient, only the columns named in the payload plus `updated_at`; every
other field, every other row, `id` and `created_at` are unchanged — in
particular, patch with gender=other rewrites the store to exactly the
same rows with only `gender` and `updated_at` replaced. -/
theorem patch_updates_only_named_fields (now : Nat) (b : Bool) (pid : String)
    (db : DB) (hex : db.patients.any (fun r => r.id == pid) = true) :
    patch_patient now b pid u7 db =
      .ok ("Paciente actualizado parcialmente",
        log_event b now "PATCH" "Patient" pid
          { db with patients := db.patients.map (fun r =>
              if r.id == pid then { r with gender := "other", updated_at := now }
              else r) }) ∧
    (∀ (pid2 : String) (u : PatientUpdate) (msg : String) (db2 : DB),
      patch_patient now b pid2 u db = .ok (msg, db2) →
      db2.observations = db.observations ∧
      List.Forall₂ (fun r r2 =>
        r2.id = r.id ∧ r2.created_at = r.created_at ∧
        ((r.id == pid2) = false → r2 = r) ∧
        ((r.id == pid2) = true → r2.updated_at = now) ∧
        (u.family_name = none → r2.family_name = r.family_name) ∧
        (u.given_name = none → r2.given_name = r.given_name) ∧
        (u.gender = none → r2.gender = r.gender) ∧
        (u.birthDate = none → r2.birth_date = r.birth_date) ∧
        (u.medical_summary = none → r2.medical_summary = r.medical_summary))
        db.patients db2.patients) := by
  constructor
  · have hrow : ∀ r : PatientRow, patchRow u7.setFields now r =
        .ok { r with gender := "other", updated_at := now } := fun r => rfl
    have hm := @mapRowsM_ok_map pid _ _ hrow db.patients
    rw [show u7.setFields = [(PatchField.gender, some "other")] from rfl] at hm
    unfold patch_patient
    rw [show validatePatientUpdate u7 = .ok u7 from rfl]
    unfold patch_patient_body
    rw [hex]
    rw [show u7.setFields = [(PatchField.gender, some "other")] from rfl]
    simp only [List.isEmpty_cons, Bool.false_eq_true, if_false, if_true, hm,
      get_db_connection_result]
  · intro pid2 u msg db2 hok
    unfold patch_patient at hok
    split at hok
    · cases hok
    · split at hok
      · cases hok
      · rename_i msg1 db1 heq
        rw [Except.ok.injEq, Prod.mk.injEq] at hok
        obtain ⟨hA, hB⟩ := hok
        subst hB
        have hb : patch_patient_body pid2 u now db = .ok (msg1, db1) := by
          rcases hx : patch_patient_body pid2 u now db with e | pr
          · rw [hx] at heq
            rcases e with ⟨st, d⟩ | m2 <;> simp [get_db_connection_result] at heq
          · rw [hx] at heq
            simp only [get_db_connection_result, Except.ok.injEq] at heq
            rw [heq]
        unfold patch_patient_body at hb
        split at hb
        · split at hb
          · cases hb
          · split at hb
            · cases hb
            · rename_i hanyT hempF ps hmr
              rw [Except.ok.injEq, Prod.mk.injEq] at hb
              obtain ⟨hmsg, hdb1⟩ := hb
              subst hdb1
              have hobs : (log_event b now "PATCH" "Patient" pid2
                  { db with patients := ps }).observations = db.observations := by
                cases b <;> simp [log_event]
              have hpat : (log_event b now "PATCH" "Patient" pid2
                  { db with patients := ps }).patients = ps := by
                cases b <;> simp [log_event]
              refine ⟨hobs, ?_⟩
              rw [hpat]
              have hf2 := mapRowsM_forall2 db.patients ps hmr
              refine List.Forall₂.imp ?_ hf2
              intro r r2 hr12
              obtain ⟨hmatch, hskip⟩ := hr12
              rcases hid : r.id == pid2 with _ | _
              · have he : r2 = r := hskip hid
                subst he
                exact ⟨rfl, rfl, fun _ => rfl,
                  fun hc => absurd hc (by simp),
                  fun _ => rfl, fun _ => rfl, fun _ => rfl, fun _ => rfl,
                  fun _ => rfl⟩
              · have hpr := patchRow_frame (hmatch hid)
                have habs := setFields_all_absent u
                exact ⟨hpr.2.1, hpr.2.2.1,
                  fun hc => absurd hc (by simp),
                  fun _ => hpr.1,
                  fun hn => hpr.2.2.2.1 (habs.1 hn),
                  fun hn => hpr.2.2.2.2.1 (habs.2.1 hn),
                  fun hn => hpr.2.2.2.2.2.1 (habs.2.2.1 hn),
                  fun hn => hpr.2.2.2.2.2.2.1 (habs.2.2.2.1 hn),
                  fun hn => hpr.2.2.2.2.2.2.2 (habs.2.2.2.2 hn)⟩
        · cases hb

/-- C7 witness: patching stored patient p1 with gender=other. -/
theorem patch_updates_only_named_fields_witness :
    patch_patient 7 true "p1" u7 db1 =
      .ok ("Paciente actualizado parcialmente",
        log_event true 7 "PATCH" "Patient" "p1"
          { db1 with patients := db1.patients.map (fun r =>
              if r.id == "p1" then { r with gender := "other", updated_at := 7 }
              else r) }) :=
  (patch_updates_only_named_fields 7 true "p1" db1 (by decide)).1

/-! ### C3 -/

/-- A successful wrapped transaction is exactly a successful body. -/
theorem get_db_connection_result_ok {α : Type} {x : Except BodyErr α} {a : α}
    (h : get_db_connection_result x = .ok a) : x = .ok a := by
  rcases x with e | a2
  · rcases e with ⟨st, d⟩ | m <;> simp [get_db_connection_result] at h
  · simp only [get_db_connection_result, Except.ok.injEq] at h
    rw [h]

/-- A successful create body returns the payload id and leaves `logs`
and `observations` untouched. -/
theorem create_patient_body_ok {p : PatientPayload} {now : Nat} {db : DB}
    {pid : String} {db1 : DB} (h : create_patient_body p now db = .ok (pid, db1)) :
    pid = p.id ∧ db1.logs = db.logs ∧ db1.observations = db.observations := by
  unfold create_patient_body at h
  split at h
  · cases h
  · split at h
    · cases h
    · rw [Except.ok.injEq, Prod.mk.injEq] at h
      obtain ⟨h1, h2⟩ := h
      rw [← h2]
      exact ⟨h1.symm, rfl, rfl⟩

/-- A successful full-replace body returns the fixed message and leaves
`logs` and `observations` untouched. -/
theorem update_patient_body_ok {pid0 : String} {p : PatientPayload} {now : Nat}
    {db : DB} {msg : String} {db1 : DB}
    (h : update_patient_body pid0 p now db = .ok (msg, db1)) :
    msg = "Paciente actualizado completamente" ∧
    db1.logs = db.logs ∧ db1.observations = db.observations := by
  unfold update_patient_body at h
  split at h
  · split at h
    · cases h
    · rw [Except.ok.injEq, Prod.mk.injEq] at h
      obtain ⟨h1, h2⟩ := h
      rw [← h2]
      exact ⟨h1.symm, rfl, rfl⟩
  · cases h

/-- A successful patch body returns the fixed message and leaves `logs`
and `observations` untouched. -/
theorem patch_patient_body_ok {pid0 : String} {u : PatientUpdate} {now : Nat}
    {db : DB} {msg : String} {db1 : DB}
    (h : patch_patient_body pid0 u now db = .ok (msg, db1)) :
    msg = "Paciente actualizado parcialmente" ∧
    db1.logs = db.logs ∧ db1.observations = db.observations := by
  unfold patch_patient_body at h
  split at h
  · split at h
    · cases h
    · split at h
      · cases h
      · rw [Except.ok.injEq, Prod.mk.injEq] at h
        obtain ⟨h1, h2⟩ := h
        rw [← h2]
        exact ⟨h1.symm, rfl, rfl⟩
  · cases h

/-- A successful delete body leaves `logs` untouched. -/
theorem delete_patient_body_ok {pid0 : String} {db : DB} {n : Nat} {db1 : DB}
    (h : delete_patient_body pid0 db = .ok (n, db1)) : db1.logs = db.logs := by
  unfold delete_patient_body at h
  split at h
  · rw [Except.ok.injEq, Prod.mk.injEq] at h
    obtain ⟨h1, h2⟩ := h
    rw [← h2]
  · cases h

/-- A successful create-observation body returns the generated id and
leaves `logs` and `patients` untouched. -/
theorem create_observation_body_ok {newId : String} {o : ObservationPayload}
    {now : Nat} {db : DB} {oid : String} {db1 : DB}
    (h : create_observation_body newId o now db = .ok (oid, db1)) :
    oid = newId ∧ db1.logs = db.logs ∧ db1.patients = db.patients := by
  unfold create_observation_body at h
  dsimp only at h
  split at h
  · split at h
    · cases h
    · split at h
      · cases h
      · split at h
        · rw [Except.ok.injEq, Prod.mk.injEq] at h
          obtain ⟨h1, h2⟩ := h
          rw [← h2]
          exact ⟨h1.symm, rfl, rfl⟩
        · cases h
  · cases h

/-- C3: every mutating endpoint either fails — identically whether or not
the audit insert would succeed, and with the store (hence the log)
unchanged — or succeeds, committing a store `db1` whose log is untouched
and then applying exactly one best-effort `log_event` append with the
operation's action, resource kind, resource id and the current server
time; a failing audit append (auditOk = false) is swallowed and changes
neither the outcome nor the committed mutation. -/
theorem audit_trail (today : Date) (now : Nat) (op : Op) (db : DB) :
    (∃ e, ∀ b, runOp today now b op db = .error e) ∨
    (∃ db1, db1.logs = db.logs ∧ ∀ b,
      runOp today now b op db =
        .ok (log_event b now (opAction op) (opResource op) (opRid op) db1)) := by
  cases op with
  | createP p =>
    rcases hv : validatePatient today p with m | p1
    · exact Or.inl ⟨⟨422, m⟩, fun b => by
        simp [runOp, create_patient, hv, Except.map]⟩
    · rcases hw : get_db_connection_result (create_patient_body p now db) with e | pr
      · exact Or.inl ⟨e, fun b => by simp [runOp, create_patient, hv, hw, Except.map]⟩
      · obtain ⟨pid, db1⟩ := pr
        obtain ⟨hpid, hlogs, _⟩ := create_patient_body_ok (get_db_connection_result_ok hw)
        subst hpid
        exact Or.inr ⟨db1, hlogs, fun b => by
          simp [runOp, create_patient, hv, hw, Except.map, opAction, opResource, opRid]⟩
  | putP pid0 p =>
    rcases hv : validatePatient today p with m | p1
    · exact Or.inl ⟨⟨422, m⟩, fun b => by
        simp [runOp, update_patient, hv, Except.map]⟩
    · rcases hw : get_db_connection_result (update_patient_body pid0 p now db) with e | pr
      · exact Or.inl ⟨e, fun b => by simp [runOp, update_patient, hv, hw, Except.map]⟩
      · obtain ⟨msg, db1⟩ := pr
        obtain ⟨_, hlogs, _⟩ := update_patient_body_ok (get_db_connection_result_ok hw)
        exact Or.inr ⟨db1, hlogs, fun b => by
          simp [runOp, update_patient, hv, hw, Except.map, opAction, opResource, opRid]⟩
  | patchP pid0 u =>
    rcases hv : validatePatientUpdate u with m | u1
    · exact Or.inl ⟨⟨422, m⟩, fun b => by
        simp [runOp, patch_patient, hv, Except.map]⟩
    · rcases hw : get_db_connection_result (patch_patient_body pid0 u now db) with e | pr
      · exact Or.inl ⟨e, fun b => by simp [runOp, patch_patient, hv, hw, Except.map]⟩
      · obtain ⟨msg, db1⟩ := pr
        obtain ⟨_, hlogs, _⟩ := patch_patient_body_ok (get_db_connection_result_ok hw)
        exact Or.inr ⟨db1, hlogs, fun b => by
          simp [runOp, patch_patient, hv, hw, Except.map, opAction, opResource, opRid]⟩
  | deleteP pid0 =>
    rcases hw : get_db_connection_result (delete_patient_body pid0 db) with e | pr
    · exact Or.inl ⟨e, fun b => by simp [runOp, delete_patient, hw, Except.map]⟩
    · obtain ⟨n, db1⟩ := pr
      have hlogs := delete_patient_body_ok (get_db_connection_result_ok hw)
      exact Or.inr ⟨db1, hlogs, fun b => by
        simp [runOp, delete_patient, hw, Except.map, opAction, opResource, opRid]⟩
  | createO newId o =>
    rcases hv : validateObservation o with m | o1
    · exact Or.inl ⟨⟨422, m⟩, fun b => by
        simp [runOp, create_observation, hv, Except.map]⟩
    · rcases hw : get_db_connection_result (create_observation_body newId o now db) with e | pr
      · exact Or.inl ⟨e, fun b => by
          simp [runOp, create_observation, hv, hw, Except.map]⟩
      · obtain ⟨oid, db1⟩ := pr
        obtain ⟨hoid, hlogs, _⟩ := create_observation_body_ok (get_db_connection_result_ok hw)
        subst hoid
        exact Or.inr ⟨db1, hlogs, fun b => by
          simp [runOp, create_observation, hv, hw, Except.map, opAction, opResource, opRid]⟩

/-! ### C9 -/

/-- No orphan observations: every stored observation references a stored
patient. -/
def noOrphans (db : DB) : Prop :=
  ∀ o ∈ db.observations, ∃ r ∈ db.patients, r.id = o.patient_id

/-- `log_event` never touches patients or observations. -/
theorem noOrphans_log_event {b : Bool} {now : Nat} {a rr i : String} {d : DB} :
    noOrphans (log_event b now a rr i d) ↔ noOrphans d := by
  cases b <;> simp [log_event, noOrphans]

/-- An id-preserving `UPDATE` preserves the list of patient ids. -/
theorem mapRowsM_ids {pid : String} {f : PatientRow → Except String PatientRow}
    (hf : ∀ r r2, f r = .ok r2 → r2.id = r.id) :
    ∀ (ps l : List PatientRow), mapRowsM pid f ps = .ok l →
      l.map (fun r => r.id) = ps.map (fun r => r.id) := by
  intro ps l h
  have h2 := mapRowsM_forall2 ps l h
  clear h
  induction h2 with
  | nil => rfl
  | @cons a b2 l1 l2 hab htail ih =>
    have hhead : b2.id = a.id := by
      rcases hid : a.id == pid with _ | _
      · rw [hab.2 hid]
      · exact hf a b2 (hab.1 hid)
    rw [List.map_cons, List.map_cons, hhead, ih]

/-- The full replace never rewrites the row id. -/
theorem replaceRow_id {p : PatientPayload} {now : Nat} {r r2 : PatientRow}
    (h : replaceRow p now r = .ok r2) : r2.id = r.id := by
  unfold replaceRow at h
  dsimp only at h
  split at h
  · cases h
  · split at h
    · cases h
      rfl
    · cases h

/-- A successful patient `INSERT` appends one row. -/
theorem insertPatientRow_ok {ps0 : List PatientRow} {p : PatientPayload}
    {now : Nat} {ps : List PatientRow} (h : insertPatientRow ps0 p now = .ok ps) :
    ∃ r, ps = ps0 ++ [r] := by
  unfold insertPatientRow at h
  dsimp only at h
  split at h
  · cases h
  · split at h
    · cases h
    · split at h
      · rw [Except.ok.injEq] at h
        exact ⟨_, h.symm⟩
      · cases h

/-- C9: every mutating operation preserves the no-orphans invariant — an
observation can only be inserted when its patient exists at insert time,
and deleting a patient removes its observations in the same transaction. -/
theorem referential_integrity (today : Date) (now : Nat) (b : Bool) (op : Op)
    (db db2 : DB) (hinv : noOrphans db)
    (h : runOp today now b op db = .ok db2) : noOrphans db2 := by
  cases op with
  | createP p =>
    simp only [runOp] at h
    rcases hop : create_patient today now b p db with e | pr
    · rw [hop] at h
      cases h
    · rw [hop] at h
      obtain ⟨pid, db1⟩ := pr
      simp only [Except.map, Except.ok.injEq] at h
      subst h
      unfold create_patient at hop
      split at hop
      · cases hop
      · rcases hw : get_db_connection_result (create_patient_body p now db) with e2 | pr2
        · rw [hw] at hop
          cases hop
        · rw [hw] at hop
          obtain ⟨pid2, db1b⟩ := pr2
          simp only [Except.ok.injEq, Prod.mk.injEq] at hop
          obtain ⟨hh1, hh2⟩ := hop
          rw [← hh2, noOrphans_log_event]
          have hb := get_db_connection_result_ok hw
          unfold create_patient_body at hb
          split at hb
          · cases hb
          · split at hb
            · cases hb
            · rename_i ps hins
              rw [Except.ok.injEq, Prod.mk.injEq] at hb
              obtain ⟨hb1, hb2⟩ := hb
              obtain ⟨r, hr⟩ := insertPatientRow_ok hins
              rw [← hb2, hr]
              intro o ho
              obtain ⟨r0, hr0, hr0id⟩ := hinv o ho
              exact ⟨r0, List.mem_append_left _ hr0, hr0id⟩
  | putP pid0 p =>
    simp only [runOp] at h
    rcases hop : update_patient today now b pid0 p db with e | pr
    · rw [hop] at h
      cases h
    · rw [hop] at h
      obtain ⟨msg, db1⟩ := pr
      simp only [Except.map, Except.ok.injEq] at h
      subst h
      unfold update_patient at hop
      split at hop
      · cases hop
      · rcases hw : get_db_connection_result (update_patient_body pid0 p now db) with e2 | pr2
        · rw [hw] at hop
          cases hop
        · rw [hw] at hop
          obtain ⟨msg2, db1b⟩ := pr2
          simp only [Except.ok.injEq, Prod.mk.injEq] at hop
          obtain ⟨hh1, hh2⟩ := hop
          rw [← hh2, noOrphans_log_event]
          have hb := get_db_connection_result_ok hw
          unfold update_patient_body at hb
          split at hb
          · split at hb
            · cases hb
            · rename_i ps hmr
              rw [Except.ok.injEq, Prod.mk.injEq] at hb
              obtain ⟨hb1, hb2⟩ := hb
              have hids := mapRowsM_ids (fun r r2 hr => replaceRow_id hr)
                db.patients ps hmr
              rw [← hb2]
              intro o ho
              obtain ⟨r0, hr0, hr0id⟩ := hinv o ho
              have : o.patient_id ∈ ps.map (fun r => r.id) := by
                rw [hids]
                exact List.mem_map.mpr ⟨r0, hr0, hr0id⟩
              obtain ⟨r2, hr2, hr2id⟩ := List.mem_map.mp this
              exact ⟨r2, hr2, hr2id⟩
          · cases hb
  | patchP pid0 u =>
    simp only [runOp] at h
    rcases hop : patch_patient now b pid0 u db with e | pr
    · rw [hop] at h
      cases h
    · rw [hop] at h
      obtain ⟨msg, db1⟩ := pr
      simp only [Except.map, Except.ok.injEq] at h
      subst h
      unfold patch_patient at hop
      split at hop
      · cases hop
      · rcases hw : get_db_connection_result (patch_patient_body pid0 u now db) with e2 | pr2
        · rw [hw] at hop
          cases hop
        · rw [hw] at hop
          obtain ⟨msg2, db1b⟩ := pr2
          simp only [Except.ok.injEq, Prod.mk.injEq] at hop
          obtain ⟨hh1, hh2⟩ := hop
          rw [← hh2, noOrphans_log_event]
          have hb := get_db_connection_result_ok hw
          unfold patch_patient_body at hb
          split at hb
          · split at hb
            · cases hb
            · split at hb
              · cases hb
              · rename_i ps hmr
                rw [Except.ok.injEq, Prod.mk.injEq] at hb
                obtain ⟨hb1, hb2⟩ := hb
                have hids := mapRowsM_ids
                  (fun r r2 hr => (patchRow_frame hr).2.1) db.patients ps hmr
                rw [← hb2]
                intro o ho
                obtain ⟨r0, hr0, hr0id⟩ := hinv o ho
                have : o.patient_id ∈ ps.map (fun r => r.id) := by
                  rw [hids]
                  exact List.mem_map.mpr ⟨r0, hr0, hr0id⟩
                obtain ⟨r2, hr2, hr2id⟩ := List.mem_map.mp this
                exact ⟨r2, hr2, hr2id⟩
          · cases hb
  | deleteP pid0 =>
    simp only [runOp] at h
    rcases hop : delete_patient now b pid0 db with e | pr
    · rw [hop] at h
      cases h
    · rw [hop] at h
      obtain ⟨n, db1⟩ := pr
      simp only [Except.map, Except.ok.injEq] at h
      subst h
      unfold delete_patient at hop
      rcases hw : get_db_connection_result (delete_patient_body pid0 db) with e2 | pr2
      · rw [hw] at hop
        cases hop
      · rw [hw] at hop
        obtain ⟨n2, db1b⟩ := pr2
        simp only [Except.ok.injEq, Prod.mk.injEq] at hop
        obtain ⟨hh1, hh2⟩ := hop
        rw [← hh2, noOrphans_log_event]
        have hb := get_db_connection_result_ok hw
        unfold delete_patient_body at hb
        split at hb
        · rw [Except.ok.injEq, Prod.mk.injEq] at hb
          obtain ⟨hb1, hb2⟩ := hb
          rw [← hb2]
          intro o ho
          rw [List.mem_filter] at ho
          obtain ⟨ho1, ho2⟩ := ho
          obtain ⟨r0, hr0, hr0id⟩ := hinv o ho1
          refine ⟨r0, List.mem_filter.mpr ⟨hr0, ?_⟩, hr0id⟩
          have hne : ¬(o.patient_id = pid0) := by
            intro hcontra
            rw [hcontra] at ho2
            simp at ho2
          simp [hr0id, hne]
        · cases hb
  | createO newId o =>
    simp only [runOp] at h
    rcases hop : create_observation now b newId o db with e | pr
    · rw [hop] at h
      cases h
    · rw [hop] at h
      obtain ⟨oid, db1⟩ := pr
      simp only [Except.map, Except.ok.injEq] at h
      subst h
      unfold create_observation at hop
      split at hop
      · cases hop
      · rcases hw : get_db_connection_result (create_observation_body newId o now db) with e2 | pr2
        · rw [hw] at hop
          cases hop
        · rw [hw] at hop
          obtain ⟨oid2, db1b⟩ := pr2
          simp only [Except.ok.injEq, Prod.mk.injEq] at hop
          obtain ⟨hh1, hh2⟩ := hop
          rw [← hh2, noOrphans_log_event]
          have hb := get_db_connection_result_ok hw
          unfold create_observation_body at hb
          dsimp only at hb
          split at hb
          · rename_i hany
            split at hb
            · cases hb
            · split at hb
              · cases hb
              · split at hb
                · rw [Except.ok.injEq, Prod.mk.injEq] at hb
                  obtain ⟨hb1, hb2⟩ := hb
                  rw [← hb2]
                  intro ob hob
                  rw [List.mem_append] at hob
                  rcases hob with hold | hnew
                  · obtain ⟨r0, hr0, hr0id⟩ := hinv ob hold
                    exact ⟨r0, hr0, hr0id⟩
                  · rw [List.mem_singleton] at hnew
                    subst hnew
                    obtain ⟨r0, hr0, hr0id⟩ := List.any_eq_true.mp hany
                    exact ⟨r0, hr0, by simpa using hr0id⟩
                · cases hb
          · cases hb

/-- A store reached by creating patient p1 into the empty store. -/
def dbc : DB :=
  ⟨[⟨"p1", "Smith", "Ann", "male", ⟨2000, 1, 2⟩, some "s", 5, 5⟩], [],
   [⟨5, "CREATE", "Patient", "p1"⟩]⟩

/-- C9 witness: the invariant is preserved across a concrete create. -/
theorem referential_integrity_witness : noOrphans dbc :=
  referential_integrity today0 5 true (.createP payW) db0 dbc
    (fun o ho => absurd ho (by simp [db0]))
    (by rfl)

/-! ### C8 -/

/-- Modelled from the spec: prefix test on character lists, part of the
plain substring-containment reading of the search contract. -/
def isPrefOf : List Char → List Char → Bool
  | [], _ => true
  | _ :: _, [] => false
  | a :: as, b :: bs => a == b && isPrefOf as bs

/-- Modelled from the spec: `contains as substring` on character lists —
the predicate the claim uses for the search result. -/
def containsSub (needle : List Char) : List Char → Bool
  | [] => isPrefOf needle []
  | c :: t => isPrefOf needle (c :: t) || containsSub needle t

/-- Unfolding of the star case of `likeMatch`, uniform over the pattern. -/
theorem likeMatch_star (ps : List Char) (s : List Char) :
    likeMatch ('%' :: ps) s = s.tails.any (fun u => likeMatch ps u) := by
  cases ps <;> cases s <;> simp [likeMatch]

/-- Unfolding of the literal-character case of `likeMatch`. -/
theorem likeMatch_plain_cons (p : Char) (ps : List Char) (c : Char) (t : List Char)
    (h1 : p ≠ '%') (h2 : p ≠ '_') (h3 : p ≠ '\\') :
    likeMatch (p :: ps) (c :: t) = ((p == c) && likeMatch ps t) := by
  cases ps <;> simp [likeMatch, h1, h2, h3]

/-- A non-star pattern never matches the empty string. -/
theorem likeMatch_plain_nil (p : Char) (ps : List Char) (h1 : p ≠ '%') :
    likeMatch (p :: ps) [] = false := by
  simp [likeMatch, h1]

/-- A lone `%` pattern matches every string. -/
theorem star_all (s : List Char) : likeMatch ['%'] s = true := by
  rw [likeMatch_star]
  exact List.any_eq_true.mpr ⟨[], by simp [List.mem_tails], rfl⟩

/-- A leading `%` matches iff the rest of the pattern matches some
suffix. -/
theorem star_iff (ps : List Char) (s : List Char) :
    likeMatch ('%' :: ps) s = true ↔
      ∃ u, u <:+ s ∧ likeMatch ps u = true := by
  rw [likeMatch_star, List.any_eq_true]
  constructor
  · rintro ⟨u, hu, hm⟩
    exact ⟨u, (List.mem_tails _ _).mp hu, hm⟩
  · rintro ⟨u, hu, hm⟩
    exact ⟨u, (List.mem_tails _ _).mpr hu, hm⟩

/-- On a pattern free of LIKE metacharacters, matching the pattern
followed by `%` is exactly a prefix test. -/
theorem plain_pref (ps : List Char)
    (hs : ∀ c ∈ ps, c ≠ '%' ∧ c ≠ '_' ∧ c ≠ '\\') :
    ∀ s : List Char, likeMatch (ps ++ ['%']) s = isPrefOf ps s := by
  induction ps with
  | nil =>
    intro s
    simp [star_all, isPrefOf]
  | cons a as ih =>
    intro s
    have ha := hs a (List.mem_cons_self a as)
    have ih2 := ih (fun c hc => hs c (List.mem_cons_of_mem a hc))
    cases s with
    | nil =>
      rw [List.cons_append, likeMatch_plain_nil a _ ha.1]
      rfl
    | cons c t =>
      rw [List.cons_append, likeMatch_plain_cons a _ c t ha.1 ha.2.1 ha.2.2, ih2]
      rfl

/-- Substring containment as a suffix-prefix search. -/
theorem containsSub_iff (ps : List Char) :
    ∀ s : List Char, containsSub ps s = true ↔
      ∃ u, u <:+ s ∧ isPrefOf ps u = true := by
  intro s
  induction s with
  | nil =>
    simp only [containsSub]
    constructor
    · intro h
      exact ⟨[], List.nil_suffix, h⟩
    · rintro ⟨u, hu, hm⟩
      rw [List.suffix_nil.mp hu] at hm
      exact hm
  | cons c t ih =>
    simp only [containsSub, Bool.or_eq_true, ih]
    constructor
    · rintro (h | ⟨u, hu, hm⟩)
      · exact ⟨c :: t, List.suffix_refl _, h⟩
      · exact ⟨u, List.suffix_cons_iff.mpr (Or.inr hu), hm⟩
    · rintro ⟨u, hu, hm⟩
      rcases List.suffix_cons_iff.mp hu with hu1 | hu2
      · subst hu1
        exact Or.inl hm
      · exact Or.inr ⟨u, hu2, hm⟩

/-- For a metacharacter-free needle, the pattern `%needle%` built by the
server matches exactly the strings containing the needle. -/
theorem like_eq_contains (low : List Char)
    (hplain : ∀ c ∈ low, c ≠ '%' ∧ c ≠ '_' ∧ c ≠ '\\') (s : List Char) :
    likeMatch ('%' :: (low ++ ['%'])) s = containsSub low s := by
  rw [Bool.eq_iff_iff, star_iff, containsSub_iff]
  exact exists_congr (fun u => by rw [plain_pref low hplain])

instance : IsTrans PatientRow searchLe := ⟨by
  intro a b c hab hbc
  rcases hab with h1 | ⟨e1, g1⟩ <;> rcases hbc with h2 | ⟨e2, g2⟩
  · exact Or.inl (lt_trans h1 h2)
  · exact Or.inl (e2 ▸ h1)
  · exact Or.inl (e1 ▸ h2)
  · exact Or.inr ⟨e1.trans e2, le_trans g1 g2⟩⟩

instance : IsTotal PatientRow searchLe := ⟨by
  intro a b
  rcases lt_trichotomy a.family_name b.family_name with h | h | h
  · exact Or.inl (Or.inl h)
  · rcases le_total a.given_name b.given_name with hg | hg
    · exact Or.inl (Or.inr ⟨h, hg⟩)
    · exact Or.inr (Or.inr ⟨h.symm, hg⟩)
  · exact Or.inr (Or.inl h)⟩

/-- A patient with names free of the underscore character. -/
def rowAB : PatientRow := ⟨"pa", "ab", "cd", "male", ⟨2000, 1, 2⟩, some "", 0, 0⟩

/-- A store holding exactly that patient. -/
def dbS : DB := ⟨[rowAB], [], []⟩

/-- C8 counterexample: the raw search string is interpolated into the SQL
LIKE pattern, so its metacharacters stay live — searching for the literal
underscore returns a patient neither of whose names contains an
underscore, refuting the claim's for-every-search-string containment
characterisation. -/
theorem search_underscore_mismatch :
    search_patients "_" dbS = [rowAB] ∧
    containsSub (lowerStr "_") (lowerStr rowAB.family_name) = false ∧
    containsSub (lowerStr "_") (lowerStr rowAB.given_name) = false := by
  exact ⟨rfl, rfl, rfl⟩

/-- C8 amended: for every search string free of the SQL LIKE
metacharacters (percent, underscore, backslash), the search returns
exactly the patients whose lowercased family or given name contains the
lowercased needle, sorted by family name then given name ascending; the
empty needle matches every patient; and the uppercase and lowercase
spellings of SMITH give identical results (the needle is lowercased
before matching). -/
theorem search_spec (s : String) (db : DB)
    (hplain : ∀ c ∈ lowerStr s, c ≠ '%' ∧ c ≠ '_' ∧ c ≠ '\\') :
    (∀ p, p ∈ search_patients s db ↔ p ∈ db.patients ∧
      (containsSub (lowerStr s) (lowerStr p.family_name) = true ∨
       containsSub (lowerStr s) (lowerStr p.given_name) = true)) ∧
    List.Sorted searchLe (search_patients s db) ∧
    (∀ p, p ∈ search_patients "" db ↔ p ∈ db.patients) ∧
    search_patients "SMITH" db = search_patients "smith" db := by
  refine ⟨?_, ?_, ?_, ?_⟩
  · intro p
    unfold search_patients search_lower
    rw [List.mem_insertionSort, List.mem_filter, Bool.or_eq_true,
      like_eq_contains (lowerStr s) hplain, like_eq_contains (lowerStr s) hplain]
  · unfold search_patients search_lower
    exact List.sorted_insertionSort searchLe _
  · intro p
    unfold search_patients search_lower
    rw [List.mem_insertionSort, List.mem_filter]
    have hall : ∀ hay : List Char,
        likeMatch ('%' :: (lowerStr "" ++ ['%'])) hay = true := by
      intro hay
      rw [show lowerStr "" = [] from rfl]
      simp only [List.nil_append]
      rw [likeMatch_star]
      exact List.any_eq_true.mpr ⟨[], by simp [List.mem_tails],
        star_all ([] : List Char)⟩
    simp [hall]
  · show search_lower (lowerStr "SMITH") db = search_lower (lowerStr "smith") db
    rw [show lowerStr "SMITH" = lowerStr "smith" by decide]

/-- C8 amended witness at a concrete store and needle. -/
theorem search_spec_witness :
    (rowW ∈ search_patients "mi" db1 ↔ rowW ∈ db1.patients ∧
      (containsSub (lowerStr "mi") (lowerStr rowW.family_name) = true ∨
       containsSub (lowerStr "mi") (lowerStr rowW.given_name) = true)) ∧
    search_patients "SMITH" db1 = search_patients "smith" db1 :=
  ⟨(search_spec "mi" db1 (by decide)).1 rowW,
   (search_spec "mi" db1 (by decide)).2.2.2⟩
